import Mathlib

/-!
Shallow embedding of the GDS Burp Suite API core (`burp.py`): the `Burp`
transaction record (construction, body-length reconciliation, header
accessors) and the `Scanner.replay` builder.

Python strings are modelled as Lean `String` (the source is Python 2, where
`str` is a byte string; our bodies are ASCII in all concrete inputs, so
character count coincides with byte count).  Python exceptions are modelled
with `Except PyErr`.  The external collaborators the source imports
(`parse_headers`, `parse_parameters`, and the stdlib `urljoin`/`urlparse`
composition) are declared out of scope by the repository itself, so the
embedding takes them as explicit function parameters and the theorems
quantify over them.
-/

/-- A Python dict with string keys and string values, as an association list
with unique keys (Python dicts cannot hold duplicate keys). -/
abbrev Dict := List (String × String)

/-- Python `d.get(k)` / `d.get(k, default)` core: lookup returning an option. -/
def dictGet (d : Dict) (k : String) : Option String :=
  match d with
  | [] => none
  | (k1, v1) :: rest => if k1 = k then some v1 else dictGet rest k

/-- Python `d.update({k: v})` on a dict with unique keys: replace the value
of `k` in place if present (keeping its position), otherwise append. -/
def dictUpdate (d : Dict) (k : String) (v : String) : Dict :=
  match d with
  | [] => [(k, v)]
  | (k1, v1) :: rest => if k1 = k then (k, v) :: rest else (k1, v1) :: dictUpdate rest k v

/-- Python `==` on string dicts: equality of the key-value mappings,
independent of insertion order. -/
def pyDictEq (a b : Dict) : Bool :=
  a.all (fun kv => dictGet b kv.1 == some kv.2) && b.all (fun kv => dictGet a kv.1 == some kv.2)

/-- Helper for `titleCase`: the boolean records whether the previous
character was a cased (alphabetic) character. -/
def titleCaseGo : Bool → List Char → List Char
  | _, [] => []
  | prevCased, c :: rest =>
    if c.isAlpha then
      (if prevCased then c.toLower else c.toUpper) :: titleCaseGo true rest
    else
      c :: titleCaseGo false rest

/-- Python `str.title()` restricted to ASCII: a letter following a
non-letter is uppercased, a letter following a letter is lowercased. -/
def titleCase (s : String) : String :=
  ⟨titleCaseGo false s.toList⟩

/-- Drop leading whitespace characters. -/
def dropSpaces (l : List Char) : List Char :=
  l.dropWhile (fun c => c.isWhitespace)

/-- Strip whitespace from both ends, as Python `int` does to its argument. -/
def trimChars (l : List Char) : List Char :=
  ((dropSpaces l.reverse).reverse).dropWhile (fun c => c.isWhitespace)

/-- Numeric value of a digit string. -/
def digitsVal (l : List Char) : Nat :=
  l.foldl (fun a c => a * 10 + (c.toNat - 48)) 0

/-- Python 2 `int(s)` for a base-10 string: optional surrounding whitespace,
optional sign, then at least one digit; `none` models the `ValueError`
raised on anything else. -/
def pythonInt (s : String) : Option Int :=
  match trimChars s.toList with
  | [] => none
  | '-' :: rest =>
    if !rest.isEmpty && rest.all Char.isDigit then some (-(digitsVal rest : Int)) else none
  | '+' :: rest =>
    if !rest.isEmpty && rest.all Char.isDigit then some ((digitsVal rest : Int)) else none
  | l =>
    if l.all Char.isDigit then some ((digitsVal l : Int)) else none

/-- Python slicing `s[:n]` for an arbitrary integer bound: a nonnegative `n`
keeps the first `n` characters; a negative `n` drops the last `-n`
characters (down to the empty string). -/
def pySlice (s : String) (n : Int) : String :=
  if 0 ≤ n then ⟨s.toList.take n.toNat⟩
  else ⟨s.toList.take (s.toList.length - (-n).toNat)⟩

/-- Python `sub in hay` on lists of characters. -/
def hasSub (needle : List Char) : List Char → Bool
  | [] => needle.isEmpty
  | c :: rest => needle.isPrefixOf (c :: rest) || hasSub needle rest

/-- Python substring containment `sub in hay` on strings. -/
def strContains (hay sub : String) : Bool :=
  hasSub sub.toList hay.toList

/-- Python exceptions raised by `Burp.__process`: `KeyError` on a missing
mandatory dict key (carrying the key name), `ValueError` on a failed
`int(...)` parse (carrying the offending string). -/
inductive PyErr where
  | keyError : String → PyErr
  | valueError : String → PyErr
deriving DecidableEq, Repr

/-- The `request` sub-mapping of a raw parsed Burp log record; every leaf is
optional because the source reads each with `.get`. -/
structure RawReq where
  method : Option String
  path : Option String
  version : Option String
  headers : Option String
  body : Option String
deriving DecidableEq, Repr

/-- The `response` sub-mapping of a raw parsed Burp log record. -/
structure RawResp where
  version : Option String
  status : Option String
  reason : Option String
  headers : Option String
  body : Option String
deriving DecidableEq, Repr

/-- A raw parsed Burp log record, the `data` argument of `Burp.__init__`.
The `request` and `response` fields are optional because the source accesses
them with `data['request']` / `data['response']`, which raise `KeyError`
when the key is absent. -/
structure RawRecord where
  host : Option String
  ip_address : Option String
  time : Option String
  request : Option RawReq
  response : Option RawResp
deriving DecidableEq, Repr

/-- The `self.request` dict of a constructed `Burp` object. -/
structure BurpRequest where
  method : Option String
  path : Option String
  version : Option String
  headers : Dict
  body : String
deriving DecidableEq, Repr

/-- The `self.response` dict of a constructed `Burp` object. -/
structure BurpResponse where
  version : Option String
  status : Int
  reason : Option String
  headers : Dict
  body : String
deriving DecidableEq, Repr

/-- A constructed `Burp` transaction record.  `url` stores the result of
`urlparse(urljoin(host, path))` as produced by the caller-supplied model of
that stdlib composition; `replayed` holds references to replayed records
(never appended to by the core itself, whose transport is commented out). -/
structure Burp where
  index : Int
  host : Option String
  ip_address : Option String
  time : Option String
  request : BurpRequest
  response : BurpResponse
  url : String
  parameters : Dict
  replayed : List Nat
deriving DecidableEq, Repr

/-- `Burp.get_request_body`: returns `self.request['body']`. -/
def Burp.get_request_body (b : Burp) : String :=
  b.request.body

/-- `Burp.get_request_method`: returns `self.request['method']`. -/
def Burp.get_request_method (b : Burp) : Option String :=
  b.request.method

/-- `Burp.get_request_headers`: returns `self.request['headers']`. -/
def Burp.get_request_headers (b : Burp) : Dict :=
  b.request.headers

/-- `Burp.get_request_header`: `self.request['headers'].get(name.title(), '')`
— empty-string default when the title-cased name is absent. -/
def Burp.get_request_header (b : Burp) (name : String) : String :=
  (dictGet b.request.headers (titleCase name)).getD ""

/-- `Burp.get_response_header`: `self.response['headers'].get(name.title(), None)`
— `None` (here `Option.none`) default when the title-cased name is absent. -/
def Burp.get_response_header (b : Burp) (name : String) : Option String :=
  dictGet b.response.headers (titleCase name)

/-- `Burp.get_response_body`: returns `self.response['body']`. -/
def Burp.get_response_body (b : Burp) : String :=
  b.response.body

/-- `Burp.get_response_status`: returns `self.response['status']`. -/
def Burp.get_response_status (b : Burp) : Int :=
  b.response.status

/-- `Burp.__len__`: the length of the response body. -/
def Burp.pyLen (b : Burp) : Nat :=
  b.get_response_body.length

/-- `int(data['response'].get('status', 0))`: an absent status is the
integer 0 already; a present status string goes through `int`, whose parse
failure is a `ValueError`. -/
def coerceStatus : Option String → Except PyErr Int
  | none => .ok 0
  | some s =>
    match pythonInt s with
    | some n => .ok n
    | none => .error (.valueError s)

/-- `self.response['body'] = self.response['body'][:content_length]`. -/
def truncResp (b : Burp) (n : Int) : Burp :=
  { b with response := { b.response with body := pySlice b.response.body n } }

/-- `self.request['body'] = self.request['body'][:content_length]`. -/
def truncReq (b : Burp) (n : Int) : Burp :=
  { b with request := { b.request with body := pySlice b.request.body n } }

/-- Continuation of response reconciliation once `int(...)` has been
attempted on the header value `s`: a failed parse is the raised
`ValueError`; a successful one truncates when `len(self)` differs. -/
def reconcileResponseVal (b : Burp) (s : String) : Option Int → Except PyErr Burp
  | none => .error (.valueError s)
  | some n => if (b.pyLen : Int) ≠ n then .ok (truncResp b n) else .ok b

/-- Truthiness test of `self.get_response_header('Content-Length')`:
`None` and the empty string are falsy, anything else proceeds to `int`. -/
def reconcileResponseCL (b : Burp) : Option String → Except PyErr Burp
  | none => .ok b
  | some s => if s = "" then .ok b else reconcileResponseVal b s (pythonInt s)

/-- Lines 91-95 of `burp.py`: if `self.get_response_header('Content-Length')`
is truthy (present and non-empty), parse it with `int` (raising `ValueError`
on failure) and, when it differs from `len(self)`, slice the response body. -/
def reconcileResponse (b : Burp) : Except PyErr Burp :=
  reconcileResponseCL b (b.get_response_header "Content-Length")

/-- Continuation of request reconciliation once `int(...)` has been
attempted on the header value `s`: a failed parse is the raised
`ValueError`; a successful one truncates when the request body length
differs, unless `'amf'` occurs in the request `Content-Type` header. -/
def reconcileRequestVal (b : Burp) (s : String) : Option Int → Except PyErr Burp
  | none => .error (.valueError s)
  | some n =>
    if ((b.get_request_body.length : Int) ≠ n)
        ∧ strContains (b.get_request_header "Content-Type") "amf" = false then
      .ok (truncReq b n)
    else .ok b

/-- Lines 97-102 of `burp.py`: if `self.get_request_header('Content-Length')`
is truthy (non-empty, since this accessor defaults to the empty string),
parse it with `int` (raising `ValueError` on failure) and, when it differs
from the request body length and `'amf'` does not occur in the request
`Content-Type` header, slice the request body. -/
def reconcileRequest (b : Burp) : Except PyErr Burp :=
  if b.get_request_header "Content-Length" = "" then .ok b
  else
    reconcileRequestVal b (b.get_request_header "Content-Length")
      (pythonInt (b.get_request_header "Content-Length"))

/-- The `Burp` object as it stands after lines 65-86 of `__process`: scalar
copy-through, header parsing, body defaults, status coercion (already done
by the caller), derived url and parameters — everything before the two
reconciliation blocks.  `ph` models `parse_headers`, `pp` models
`parse_parameters` (invoked on the object with `parameters` still empty, as
in the source), `mkUrl` models `urlparse(urljoin(host, path))`. -/
def buildBase (ph : Option String → Dict) (pp : Burp → Dict)
    (mkUrl : Option String → Option String → String)
    (index : Int) (data : RawRecord) (req : RawReq) (resp : RawResp) (st : Int) : Burp :=
  let b0 : Burp :=
    { index := index
      host := data.host
      ip_address := data.ip_address
      time := data.time
      request :=
        { method := req.method
          path := req.path
          version := req.version
          headers := ph req.headers
          body := req.body.getD "" }
      response :=
        { version := resp.version
          status := st
          reason := resp.reason
          headers := ph resp.headers
          body := resp.body.getD "" }
      url := mkUrl data.host req.path
      parameters := []
      replayed := [] }
  { b0 with parameters := pp b0 }

/-- The final reconciliation phase of `__process` on the base object:
response-body reconciliation followed, when it does not raise, by
request-body reconciliation. -/
def processReconcile (b1 : Burp) : Except PyErr Burp :=
  match reconcileResponse b1 with
  | .error e => .error e
  | .ok b2 => reconcileRequest b2

/-- `__process` once both mandatory sections are in hand: coerce the status
(raising on an unparseable status string), build the base object, and
reconcile. -/
def processSections (ph : Option String → Dict) (pp : Burp → Dict)
    (mkUrl : Option String → Option String → String)
    (index : Int) (data : RawRecord) (req : RawReq) (resp : RawResp) : Except PyErr Burp :=
  match coerceStatus resp.status with
  | .error e => .error e
  | .ok st => processReconcile (buildBase ph pp mkUrl index data req resp st)

/-- `Burp.__process` (called by `Burp.__init__` when a raw record is given):
access the mandatory `request` and `response` sections (`KeyError` when
absent, in source evaluation order), coerce the status, build the base
object, then reconcile the response body followed by the request body.
Returns the constructed object or the first exception raised; no partial
object ever escapes. -/
def Burp.process (ph : Option String → Dict) (pp : Burp → Dict)
    (mkUrl : Option String → Option String → String)
    (index : Int) (data : RawRecord) : Except PyErr Burp :=
  match data.request with
  | none => .error (.keyError "request")
  | some req =>
    match data.response with
    | none => .error (.keyError "response")
    | some resp => processSections ph pp mkUrl index data req resp

/-- A store of dict objects, used to model Python object identity for header
dicts: a reference is an index into `cells`. -/
structure Heap where
  cells : List Dict
deriving DecidableEq, Repr

/-- Dereference: out-of-range references never arise from the source
(Python references are always valid); the default is irrelevant. -/
def Heap.get (h : Heap) (r : Nat) : Dict :=
  (h.cells.get? r).getD []

/-- Overwrite the dict stored at reference `r`. -/
def Heap.set (h : Heap) (r : Nat) (d : Dict) : Heap :=
  ⟨h.cells.set r d⟩

/-- Allocate a fresh dict object, returning the new store and its reference. -/
def Heap.alloc (h : Heap) (d : Dict) : Heap × Nat :=
  (⟨h.cells ++ [d]⟩, h.cells.length)

/-- The effective replay parameters computed by `Scanner.replay`, together
with the store after the build (the source then hands them to the
commented-out transport). -/
structure ReplayOut where
  url : String
  method : Option String
  body : String
  headersRef : Nat
  heap : Heap
deriving DecidableEq, Repr

/-- The headers selection of `Scanner.replay` (line 238-239 of `burp.py`):
`copy.deepcopy(request.get_request_headers())` allocates a fresh dict when
no `headers` override is supplied (`srcRef` is the reference to the
record's own headers dict, whose content the deep copy duplicates), while a
supplied override is used by reference, with no copy. -/
def Scanner.replayHeap (h : Heap) (srcRef : Nat) : Option Nat → Heap × Nat
  | some r => (h, r)
  | none => Heap.alloc h (Heap.get h srcRef)

/-- The `method == "POST" and body` rewrite of `Scanner.replay`: when the
effective method is the string `"POST"` and the effective body is truthy,
`headers.update({'Content-Length': str(len(body))})` mutates the dict
object `hr.2` refers to, whichever one that is. -/
def Scanner.replayFinish (url : String) (method : Option String) (body : String)
    (hr : Heap × Nat) : ReplayOut :=
  if method = some "POST" ∧ body ≠ "" then
    ⟨url, method, body, hr.2,
      Heap.set hr.1 hr.2 (dictUpdate (Heap.get hr.1 hr.2) "Content-Length" (toString body.length))⟩
  else ⟨url, method, body, hr.2, hr.1⟩

/-- `Scanner.replay` (lines 232-242 of `burp.py`): default each override
from the source record (`url` from `request.url.geturl()`, stored here as
`b.url`; `method` from `get_request_method()`, which may be `None`; `body`
from `get_request_body()`), select the headers object, and apply the POST
Content-Length rewrite. -/
def Scanner.replay (h : Heap) (b : Burp) (srcRef : Nat)
    (url method body : Option String) (headers : Option Nat) : ReplayOut :=
  Scanner.replayFinish (url.getD b.url) (method <|> b.get_request_method)
    (body.getD b.get_request_body) (Scanner.replayHeap h srcRef headers)

/-!
Concrete fixtures.  `phT` is a concrete header parser used to instantiate
the universally quantified collaborator functions: it maps a raw header
blob tag to a canonical (title-cased) header dict, as the external
`parse_headers` does.  `ppT` and `mkT` are trivial instances of the
parameter parser and the url derivation.
-/

def phT : Option String → Dict := fun o =>
  match o with
  | some "H1" => [("Content-Length", "5")]
  | some "H2" => [("Content-Length", "-1")]
  | some "H3" => [("Content-Length", "abc")]
  | some "H4" => [("Content-Length", "2")]
  | some "H5" => [("Content-Length", "xyz")]
  | some "HA" => [("Content-Length", "5"), ("Content-Type", "application/x-amf")]
  | _ => []

def ppT : Burp → Dict := fun _ => []

def mkT : Option String → Option String → String := fun _ _ => ""

/-- A well-formed minimal raw request section. -/
def reqMin : RawReq := ⟨some "GET", some "/", some "HTTP/1.1", none, some ""⟩

/-- A well-formed minimal raw response section. -/
def respMin : RawResp := ⟨some "HTTP/1.1", some "200", some "OK", none, some ""⟩

/-- Raw record whose response declares `Content-Length: 5` over the parsed
body `"helloWORLD"` (the spec's own concrete scenario). -/
def rawA : RawRecord :=
  ⟨some "http://x", none, none,
   some ⟨some "GET", some "/a", some "HTTP/1.1", none, some ""⟩,
   some ⟨some "HTTP/1.1", some "200", some "OK", some "H1", some "helloWORLD"⟩⟩

/-- The record constructed from `rawA`: body truncated to `"hello"`. -/
def bA : Burp :=
  ⟨0, some "http://x", none, none,
   ⟨some "GET", some "/a", some "HTTP/1.1", [], ""⟩,
   ⟨some "HTTP/1.1", 200, some "OK", [("Content-Length", "5")], "hello"⟩,
   "", [], []⟩

/-- Raw record whose response declares `Content-Length: -1` (parseable by
`int`) over the parsed body `"ab"`. -/
def rawC1 : RawRecord :=
  ⟨none, none, none, some reqMin,
   some ⟨some "HTTP/1.1", some "200", some "OK", some "H2", some "ab"⟩⟩

/-- The record constructed from `rawC1`: `"ab"[:-1]` drops the last byte. -/
def bC1 : Burp :=
  ⟨0, none, none, none,
   ⟨some "GET", some "/", some "HTTP/1.1", [], ""⟩,
   ⟨some "HTTP/1.1", 200, some "OK", [("Content-Length", "-1")], "a"⟩,
   "", [], []⟩

/-- Raw record with an AMF request: `Content-Length: 5` mismatching the
parsed body `"ab"`, and `Content-Type` containing `"amf"`. -/
def rawW2 : RawRecord :=
  ⟨none, none, none,
   some ⟨some "POST", some "/", some "HTTP/1.1", some "HA", some "ab"⟩,
   some respMin⟩

/-- The record constructed from `rawW2`: the request body is untouched. -/
def bW2 : Burp :=
  ⟨0, none, none, none,
   ⟨some "POST", some "/", some "HTTP/1.1",
    [("Content-Length", "5"), ("Content-Type", "application/x-amf")], "ab"⟩,
   ⟨some "HTTP/1.1", 200, some "OK", [], ""⟩,
   "", [], []⟩

/-- Raw record with declared lengths at least the body lengths: request
`Content-Length: 5` over `"ab"`, response `Content-Length: 2` over `"ab"`. -/
def rawW3 : RawRecord :=
  ⟨none, none, none,
   some ⟨some "GET", some "/", some "HTTP/1.1", some "H1", some "ab"⟩,
   some ⟨some "HTTP/1.1", some "200", some "OK", some "H4", some "ab"⟩⟩

/-- The record constructed from `rawW3`: both bodies unchanged. -/
def bW3 : Burp :=
  ⟨0, none, none, none,
   ⟨some "GET", some "/", some "HTTP/1.1", [("Content-Length", "5")], "ab"⟩,
   ⟨some "HTTP/1.1", 200, some "OK", [("Content-Length", "2")], "ab"⟩,
   "", [], []⟩

/-- Raw record whose response status is the unparseable string `"abc"`. -/
def rawC5 : RawRecord :=
  ⟨none, none, none, some reqMin,
   some ⟨some "HTTP/1.1", some "abc", some "OK", none, some ""⟩⟩

/-- Raw record with no response status at all. -/
def rawW5 : RawRecord :=
  ⟨none, none, none, some reqMin,
   some ⟨some "HTTP/1.1", none, some "OK", none, some ""⟩⟩

/-- The record constructed from `rawW5`: status defaults to 0. -/
def bW5 : Burp :=
  ⟨0, none, none, none,
   ⟨some "GET", some "/", some "HTTP/1.1", [], ""⟩,
   ⟨some "HTTP/1.1", 0, some "OK", [], ""⟩,
   "", [], []⟩

/-- Raw record missing the top-level `request` section. -/
def rawNoReq : RawRecord := ⟨none, none, none, none, some respMin⟩

/-- Raw record missing the top-level `response` section. -/
def rawNoResp : RawRecord := ⟨none, none, none, some reqMin, none⟩

/-- Raw record for a POST whose declared request `Content-Length: 5`
exceeds the body `"ab"` (so construction keeps both as-is). -/
def rawC8 : RawRecord :=
  ⟨none, none, none,
   some ⟨some "POST", some "/a", some "HTTP/1.1", some "H1", some "ab"⟩,
   some respMin⟩

/-- The record constructed from `rawC8`. -/
def bC8 : Burp :=
  ⟨0, none, none, none,
   ⟨some "POST", some "/a", some "HTTP/1.1", [("Content-Length", "5")], "ab"⟩,
   ⟨some "HTTP/1.1", 200, some "OK", [], ""⟩,
   "", [], []⟩

/-- A one-cell heap whose cell 0 is `bC8`'s request headers object. -/
def h0 : Heap := ⟨[[("Content-Length", "5")]]⟩

/-- Result of `Scanner.replay h0 bC8 0` with no overrides: a fresh cell 1
is allocated for the deep copy and its Content-Length is rewritten to "2". -/
def outPost : ReplayOut :=
  ⟨"", some "POST", "ab", 1,
   ⟨[[("Content-Length", "5")], [("Content-Length", "2")]]⟩⟩

/-- Result of `Scanner.replay h0 bC8 0` with cell 0 itself supplied as the
headers override: the rewrite lands in cell 0, in place. -/
def outC10 : ReplayOut :=
  ⟨"", some "POST", "ab", 0, ⟨[[("Content-Length", "2")]]⟩⟩

/-!
Helper lemmas: string/list facts, dict facts, heap facts, and unfolding
equations for the reconciliation pipeline.
-/

theorem mk_toList (s : String) : String.mk s.toList = s := by
  cases s
  rfl

theorem mk_length (l : List Char) : (String.mk l).length = l.length := rfl

theorem toList_length (s : String) : s.toList.length = s.length := rfl

theorem titleCase_CL : titleCase "Content-Length" = "Content-Length" := by decide

theorem titleCase_CT : titleCase "Content-Type" = "Content-Type" := by decide

theorem pythonInt_empty : pythonInt "" = none := rfl

theorem pythonInt_some_ne_empty {s : String} {n : Int} (h : pythonInt s = some n) :
    s ≠ "" := by
  rintro rfl
  rw [pythonInt_empty] at h
  exact Option.noConfusion h

theorem dictGet_update_self (d : Dict) (k v : String) :
    dictGet (dictUpdate d k v) k = some v := by
  induction d with
  | nil => simp [dictUpdate, dictGet]
  | cons kv rest ih =>
    obtain ⟨k1, v1⟩ := kv
    by_cases hk : k1 = k
    · simp [dictUpdate, hk, dictGet]
    · simp [dictUpdate, hk, dictGet, ih]

theorem listTake_all {α : Type} (l : List α) (n : Nat) (h : l.length ≤ n) :
    l.take n = l := by
  induction l generalizing n with
  | nil => simp
  | cons a t ih =>
    cases n with
    | zero => simp at h
    | succ m =>
      simp only [List.take]
      rw [ih m (by simpa using h)]

theorem listTake_length {α : Type} (l : List α) (n : Nat) (h : n ≤ l.length) :
    (l.take n).length = n := by
  induction l generalizing n with
  | nil =>
    cases n with
    | zero => rfl
    | succ m => simp at h
  | cons a t ih =>
    cases n with
    | zero => rfl
    | succ m =>
      simp only [List.take, List.length_cons]
      rw [ih m (by simpa using h)]

theorem listGet_append_left {α : Type} (l1 l2 : List α) (r : Nat) (hr : r < l1.length) :
    (l1 ++ l2).get? r = l1.get? r := by
  induction l1 generalizing r with
  | nil => simp at hr
  | cons a t ih =>
    cases r with
    | zero => rfl
    | succ m => exact ih m (by simpa using hr)

theorem listGet_concat {α : Type} (l : List α) (d : α) :
    (l ++ [d]).get? l.length = some d := by
  induction l with
  | nil => rfl
  | cons a t ih => exact ih

theorem listGet_set_self {α : Type} (l : List α) (r : Nat) (d : α) (hr : r < l.length) :
    (l.set r d).get? r = some d := by
  induction l generalizing r with
  | nil => simp at hr
  | cons a t ih =>
    cases r with
    | zero => rfl
    | succ m => exact ih m (by simpa using hr)

theorem listGet_set_ne {α : Type} (l : List α) (r1 r2 : Nat) (d : α) (hne : r1 ≠ r2) :
    (l.set r1 d).get? r2 = l.get? r2 := by
  induction l generalizing r1 r2 with
  | nil => rfl
  | cons a t ih =>
    cases r1 with
    | zero =>
      cases r2 with
      | zero => exact absurd rfl hne
      | succ m2 => rfl
    | succ m1 =>
      cases r2 with
      | zero => rfl
      | succ m2 => exact ih m1 m2 (by omega)

theorem heapGet_set_self (h : Heap) (r : Nat) (d : Dict) (hr : r < h.cells.length) :
    Heap.get (Heap.set h r d) r = d := by
  show ((h.cells.set r d).get? r).getD [] = d
  rw [listGet_set_self h.cells r d hr]
  rfl

theorem heapGet_set_ne (h : Heap) (r1 r2 : Nat) (d : Dict) (hne : r1 ≠ r2) :
    Heap.get (Heap.set h r1 d) r2 = Heap.get h r2 := by
  show ((h.cells.set r1 d).get? r2).getD [] = (h.cells.get? r2).getD []
  rw [listGet_set_ne h.cells r1 r2 d hne]

theorem heapGet_alloc_fresh (h : Heap) (d : Dict) :
    Heap.get (Heap.alloc h d).1 (Heap.alloc h d).2 = d := by
  show ((h.cells ++ [d]).get? h.cells.length).getD [] = d
  rw [listGet_concat h.cells d]
  rfl

theorem heapGet_alloc_old (h : Heap) (d : Dict) (r : Nat) (hr : r < h.cells.length) :
    Heap.get (Heap.alloc h d).1 r = Heap.get h r := by
  show ((h.cells ++ [d]).get? r).getD [] = (h.cells.get? r).getD []
  rw [listGet_append_left h.cells [d] r hr]

theorem pySlice_nonneg (s : String) (n : Int) (hn : 0 ≤ n) :
    pySlice s n = String.mk (s.toList.take n.toNat) := by
  unfold pySlice
  rw [if_pos hn]

theorem pySlice_ge (s : String) (n : Int) (hn : (s.length : Int) ≤ n) :
    pySlice s n = s := by
  have h0 : (0 : Int) ≤ n := le_trans (Int.ofNat_nonneg s.length) hn
  rw [pySlice_nonneg s n h0]
  have hlen : s.toList.length ≤ n.toNat := by
    rw [toList_length]
    omega
  rw [listTake_all s.toList n.toNat hlen, mk_toList]

theorem pySlice_length_lt (s : String) (n : Int) (hn : 0 ≤ n)
    (hl : n < (s.length : Int)) : ((pySlice s n).length : Int) = n := by
  rw [pySlice_nonneg s n hn, mk_length]
  rw [listTake_length s.toList n.toNat (by rw [toList_length]; omega)]
  omega

theorem coerceStatus_none : coerceStatus none = .ok 0 := rfl

theorem coerceStatus_some_ok {s : String} {n : Int} (h : pythonInt s = some n) :
    coerceStatus (some s) = .ok n := by
  simp only [coerceStatus]
  rw [h]

theorem coerceStatus_some_err {s : String} (h : pythonInt s = none) :
    coerceStatus (some s) = .error (.valueError s) := by
  simp only [coerceStatus]
  rw [h]

theorem recResp_some {b : Burp} {s : String} {n : Int}
    (hcl : b.get_response_header "Content-Length" = some s)
    (hp : pythonInt s = some n) :
    reconcileResponse b = if (b.pyLen : Int) ≠ n then .ok (truncResp b n) else .ok b := by
  have hs : s ≠ "" := pythonInt_some_ne_empty hp
  unfold reconcileResponse
  rw [hcl]
  simp only [reconcileResponseCL, if_neg hs, hp, reconcileResponseVal]

theorem recReq_empty {b : Burp} (h : b.get_request_header "Content-Length" = "") :
    reconcileRequest b = .ok b := by
  unfold reconcileRequest
  rw [if_pos h]

theorem recReq_some {b : Burp} {s : String} {n : Int}
    (hcl : b.get_request_header "Content-Length" = s)
    (hp : pythonInt s = some n) :
    reconcileRequest b =
      if ((b.get_request_body.length : Int) ≠ n)
          ∧ strContains (b.get_request_header "Content-Type") "amf" = false then
        .ok (truncReq b n)
      else .ok b := by
  have hs : s ≠ "" := pythonInt_some_ne_empty hp
  unfold reconcileRequest
  rw [hcl, if_neg hs, hp]
  simp only [reconcileRequestVal]

theorem recResp_shape {b c : Burp} (h : reconcileResponse b = .ok c) :
    c.request = b.request ∧ c.response.headers = b.response.headers ∧
      c.response.status = b.response.status := by
  unfold reconcileResponse at h
  cases hcl : b.get_response_header "Content-Length" with
  | none =>
    rw [hcl] at h
    simp only [reconcileResponseCL] at h
    injection h with h
    subst h
    exact ⟨rfl, rfl, rfl⟩
  | some s =>
    rw [hcl] at h
    simp only [reconcileResponseCL] at h
    by_cases hs : s = ""
    · rw [if_pos hs] at h
      injection h with h
      subst h
      exact ⟨rfl, rfl, rfl⟩
    · rw [if_neg hs] at h
      cases hps : pythonInt s with
      | none =>
        rw [hps] at h
        simp only [reconcileResponseVal] at h
        exact Except.noConfusion h
      | some n =>
        rw [hps] at h
        simp only [reconcileResponseVal] at h
        by_cases hne : (b.pyLen : Int) ≠ n
        · rw [if_pos hne] at h
          injection h with h
          subst h
          exact ⟨rfl, rfl, rfl⟩
        · rw [if_neg hne] at h
          injection h with h
          subst h
          exact ⟨rfl, rfl, rfl⟩

theorem recReq_shape {b c : Burp} (h : reconcileRequest b = .ok c) :
    c.response = b.response ∧ c.request.headers = b.request.headers := by
  unfold reconcileRequest at h
  by_cases he : b.get_request_header "Content-Length" = ""
  · rw [if_pos he] at h
    injection h with h
    subst h
    exact ⟨rfl, rfl⟩
  · rw [if_neg he] at h
    cases hps : pythonInt (b.get_request_header "Content-Length") with
    | none =>
      rw [hps] at h
      simp only [reconcileRequestVal] at h
      exact Except.noConfusion h
    | some n =>
      rw [hps] at h
      simp only [reconcileRequestVal] at h
      by_cases hc : ((b.get_request_body.length : Int) ≠ n)
          ∧ strContains (b.get_request_header "Content-Type") "amf" = false
      · rw [if_pos hc] at h
        injection h with h
        subst h
        exact ⟨rfl, rfl⟩
      · rw [if_neg hc] at h
        injection h with h
        subst h
        exact ⟨rfl, rfl⟩

theorem processReconcile_ok {b1 b2 : Burp} (h : reconcileResponse b1 = .ok b2) :
    processReconcile b1 = reconcileRequest b2 := by
  unfold processReconcile
  rw [h]

theorem processReconcile_err {b1 : Burp} {e : PyErr} (h : reconcileResponse b1 = .error e) :
    processReconcile b1 = .error e := by
  unfold processReconcile
  rw [h]

theorem processSections_ok {ph : Option String → Dict} {pp : Burp → Dict}
    {mkUrl : Option String → Option String → String} {idx : Int}
    {data : RawRecord} {req : RawReq} {resp : RawResp} {st : Int}
    (h : coerceStatus resp.status = .ok st) :
    processSections ph pp mkUrl idx data req resp =
      processReconcile (buildBase ph pp mkUrl idx data req resp st) := by
  unfold processSections
  rw [h]

theorem processSections_err {ph : Option String → Dict} {pp : Burp → Dict}
    {mkUrl : Option String → Option String → String} {idx : Int}
    {data : RawRecord} {req : RawReq} {resp : RawResp} {e : PyErr}
    (h : coerceStatus resp.status = .error e) :
    processSections ph pp mkUrl idx data req resp = .error e := by
  unfold processSections
  rw [h]

theorem process_cons (ph : Option String → Dict) (pp : Burp → Dict)
    (mkUrl : Option String → Option String → String) (idx : Int)
    (h0x i0 t0 : Option String) (req : RawReq) (resp : RawResp) :
    Burp.process ph pp mkUrl idx ⟨h0x, i0, t0, some req, some resp⟩ =
      processSections ph pp mkUrl idx ⟨h0x, i0, t0, some req, some resp⟩ req resp := rfl

theorem process_noreq (ph : Option String → Dict) (pp : Burp → Dict)
    (mkUrl : Option String → Option String → String) (idx : Int)
    (h0x i0 t0 : Option String) (dresp : Option RawResp) :
    Burp.process ph pp mkUrl idx ⟨h0x, i0, t0, none, dresp⟩ =
      .error (.keyError "request") := rfl

theorem process_noresp (ph : Option String → Dict) (pp : Burp → Dict)
    (mkUrl : Option String → Option String → String) (idx : Int)
    (h0x i0 t0 : Option String) (req : RawReq) :
    Burp.process ph pp mkUrl idx ⟨h0x, i0, t0, some req, none⟩ =
      .error (.keyError "response") := rfl

theorem process_ok_parts (ph : Option String → Dict) (pp : Burp → Dict)
    (mkUrl : Option String → Option String → String) (idx : Int)
    (h0x i0 t0 : Option String) (req : RawReq) (resp : RawResp) (b : Burp)
    (hok : Burp.process ph pp mkUrl idx ⟨h0x, i0, t0, some req, some resp⟩ = .ok b) :
    ∃ st b2, coerceStatus resp.status = .ok st ∧
      reconcileResponse (buildBase ph pp mkUrl idx ⟨h0x, i0, t0, some req, some resp⟩ req resp st) = .ok b2 ∧
      reconcileRequest b2 = .ok b := by
  rw [process_cons] at hok
  cases hcs : coerceStatus resp.status with
  | error e =>
    rw [processSections_err hcs] at hok
    exact Except.noConfusion hok
  | ok st =>
    rw [processSections_ok hcs] at hok
    cases hrr : reconcileResponse (buildBase ph pp mkUrl idx ⟨h0x, i0, t0, some req, some resp⟩ req resp st) with
    | error e =>
      rw [processReconcile_err hrr] at hok
      exact Except.noConfusion hok
    | ok b2 =>
      rw [processReconcile_ok hrr] at hok
      exact ⟨st, b2, rfl, hrr, hok⟩

/-!
Claim theorems.
-/

/-- C1, counterexample to the claim as stated: the response Content-Length
`"-1"` is parseable as the integer -1 and the parsed body `"ab"` is longer
than -1 bytes, yet the constructed record's response body (`"a"`, the
Python slice `"ab"[:-1]`) does not have length -1, so it neither has length
exactly N nor equals the first N bytes. -/
theorem C1_counterexample :
    Burp.process phT ppT mkT 0 rawC1 = .ok bC1 ∧
    Burp.get_response_header bC1 "Content-Length" = some "-1" ∧
    pythonInt "-1" = some (-1) ∧
    ((-1 : Int) < (("ab" : String).length : Int)) ∧
    ¬ ((bC1.response.body.length : Int) = -1) :=
  ⟨rfl, rfl, rfl, by decide, by decide⟩

/-- C1 (amended: the declared length must be nonnegative): for every
constructed record whose raw response carries a Content-Length header
parseable as a nonnegative integer `n` with the parsed response body longer
than `n` bytes, the resulting response body has length exactly `n` and
equals the first `n` bytes of the original parsed body. -/
theorem C1_amended (ph : Option String → Dict) (pp : Burp → Dict)
    (mkUrl : Option String → Option String → String) (idx : Int)
    (data : RawRecord) (resp : RawResp) (b : Burp) (s : String) (n : Int)
    (hresp : data.response = some resp)
    (hok : Burp.process ph pp mkUrl idx data = .ok b)
    (hcl : dictGet (ph resp.headers) "Content-Length" = some s)
    (hp : pythonInt s = some n)
    (hn : 0 ≤ n)
    (hlong : n < (((resp.body.getD "").length : Nat) : Int)) :
    b.response.body = String.mk ((resp.body.getD "").toList.take n.toNat) ∧
      (b.response.body.length : Int) = n := by
  obtain ⟨dh, di, dt, dreq, dresp⟩ := data
  have hd : dresp = some resp := hresp
  subst hd
  cases dreq with
  | none =>
    rw [process_noreq] at hok
    exact Except.noConfusion hok
  | some req =>
    obtain ⟨st, b2, hcs, hrr, hreq2⟩ :=
      process_ok_parts ph pp mkUrl idx dh di dt req resp b hok
    have hclB : (buildBase ph pp mkUrl idx ⟨dh, di, dt, some req, some resp⟩
        req resp st).get_response_header "Content-Length" = some s := by
      show dictGet (ph resp.headers) (titleCase "Content-Length") = some s
      rw [titleCase_CL]
      exact hcl
    rw [recResp_some hclB hp] at hrr
    have hlen : ((buildBase ph pp mkUrl idx ⟨dh, di, dt, some req, some resp⟩
        req resp st).pyLen : Int) ≠ n := by
      show (((resp.body.getD "").length : Nat) : Int) ≠ n
      omega
    rw [if_pos hlen] at hrr
    injection hrr with hb2
    have hrespeq : b.response = b2.response := (recReq_shape hreq2).1
    have hbody : b.response.body = pySlice (resp.body.getD "") n := by
      rw [hrespeq, ← hb2]
      rfl
    constructor
    · rw [hbody]
      exact pySlice_nonneg _ _ hn
    · rw [hbody]
      exact pySlice_length_lt _ _ hn hlong

/-- C1 amended, witness: the spec's own scenario — `Content-Length: 5`
over the parsed body `"helloWORLD"` yields a 5-byte body equal to the
first 5 bytes. -/
theorem C1_amended_witness :
    bA.response.body = String.mk (("helloWORLD" : String).toList.take ((5 : Int)).toNat) ∧
      (bA.response.body.length : Int) = 5 :=
  C1_amended phT ppT mkT 0 rawA
    ⟨some "HTTP/1.1", some "200", some "OK", some "H1", some "helloWORLD"⟩
    bA "5" 5 rfl rfl rfl rfl (by decide) (by decide)

/-- C2: for every constructed record whose raw request has a Content-Length
header whose integer value differs from the parsed request body's length,
if the request's Content-Type header contains the substring `"amf"`, the
request body after construction equals the parsed request body unchanged. -/
theorem C2_theorem (ph : Option String → Dict) (pp : Burp → Dict)
    (mkUrl : Option String → Option String → String) (idx : Int)
    (data : RawRecord) (req : RawReq) (b : Burp) (s : String) (n : Int)
    (hreq : data.request = some req)
    (hok : Burp.process ph pp mkUrl idx data = .ok b)
    (hcl : dictGet (ph req.headers) "Content-Length" = some s)
    (hp : pythonInt s = some n)
    (hdiff : (((req.body.getD "").length : Nat) : Int) ≠ n)
    (hamf : strContains ((dictGet (ph req.headers) "Content-Type").getD "") "amf" = true) :
    b.request.body = req.body.getD "" := by
  obtain ⟨dh, di, dt, dreq, dresp⟩ := data
  have hd : dreq = some req := hreq
  subst hd
  cases dresp with
  | none =>
    rw [process_noresp] at hok
    exact Except.noConfusion hok
  | some resp =>
    obtain ⟨st, b2, hcs, hrr, hreq2⟩ :=
      process_ok_parts ph pp mkUrl idx dh di dt req resp b hok
    have hshape := recResp_shape hrr
    have hb2headers : b2.request.headers = ph req.headers := by
      rw [hshape.1]
      rfl
    have hcl2 : b2.get_request_header "Content-Length" = s := by
      show (dictGet b2.request.headers (titleCase "Content-Length")).getD "" = s
      rw [hb2headers, titleCase_CL, hcl]
      rfl
    rw [recReq_some hcl2 hp] at hreq2
    have hct : strContains (b2.get_request_header "Content-Type") "amf" = true := by
      show strContains ((dictGet b2.request.headers (titleCase "Content-Type")).getD "") "amf" = true
      rw [hb2headers, titleCase_CT]
      exact hamf
    have hcond : ¬ (((b2.get_request_body.length : Int) ≠ n)
        ∧ strContains (b2.get_request_header "Content-Type") "amf" = false) := by
      rintro ⟨-, hfalse⟩
      rw [hct] at hfalse
      exact Bool.noConfusion hfalse
    rw [if_neg hcond] at hreq2
    injection hreq2 with hb
    rw [← hb, hshape.1]
    rfl

/-- C2, witness: a request with `Content-Length: 5`, body `"ab"` and
`Content-Type: application/x-amf` keeps its body unchanged. -/
theorem C2_theorem_witness : bW2.request.body = "ab" :=
  C2_theorem phT ppT mkT 0 rawW2
    ⟨some "POST", some "/", some "HTTP/1.1", some "HA", some "ab"⟩
    bW2 "5" 5 rfl rfl rfl rfl (by decide) (by decide)

/-- C3: body-length reconciliation only ever shortens — on either side, a
declared Content-Length greater than or equal to the parsed body length
leaves the body exactly as parsed (no padding, no re-trim). -/
theorem C3_theorem (ph : Option String → Dict) (pp : Burp → Dict)
    (mkUrl : Option String → Option String → String) (idx : Int)
    (data : RawRecord) (req : RawReq) (resp : RawResp) (b : Burp)
    (hreq : data.request = some req)
    (hresp : data.response = some resp)
    (hok : Burp.process ph pp mkUrl idx data = .ok b) :
    (∀ s n, dictGet (ph resp.headers) "Content-Length" = some s →
      pythonInt s = some n → (((resp.body.getD "").length : Nat) : Int) ≤ n →
      b.response.body = resp.body.getD "") ∧
    (∀ s n, dictGet (ph req.headers) "Content-Length" = some s →
      pythonInt s = some n → (((req.body.getD "").length : Nat) : Int) ≤ n →
      b.request.body = req.body.getD "") := by
  obtain ⟨dh, di, dt, dreq, dresp⟩ := data
  have hd1 : dreq = some req := hreq
  have hd2 : dresp = some resp := hresp
  subst hd1
  subst hd2
  obtain ⟨st, b2, hcs, hrr, hreq2⟩ :=
    process_ok_parts ph pp mkUrl idx dh di dt req resp b hok
  constructor
  · intro s n hcl hp hle
    have hclB : (buildBase ph pp mkUrl idx ⟨dh, di, dt, some req, some resp⟩
        req resp st).get_response_header "Content-Length" = some s := by
      show dictGet (ph resp.headers) (titleCase "Content-Length") = some s
      rw [titleCase_CL]
      exact hcl
    rw [recResp_some hclB hp] at hrr
    have hrespeq : b.response = b2.response := (recReq_shape hreq2).1
    by_cases hne : ((buildBase ph pp mkUrl idx ⟨dh, di, dt, some req, some resp⟩
        req resp st).pyLen : Int) ≠ n
    · rw [if_pos hne] at hrr
      injection hrr with hb2
      rw [hrespeq, ← hb2]
      show pySlice (resp.body.getD "") n = resp.body.getD ""
      exact pySlice_ge _ _ hle
    · rw [if_neg hne] at hrr
      injection hrr with hb2
      rw [hrespeq, ← hb2]
      rfl
  · intro s n hcl hp hle
    have hshape := recResp_shape hrr
    have hb2headers : b2.request.headers = ph req.headers := by
      rw [hshape.1]
      rfl
    have hb2body : b2.request.body = req.body.getD "" := by
      rw [hshape.1]
      rfl
    have hcl2 : b2.get_request_header "Content-Length" = s := by
      show (dictGet b2.request.headers (titleCase "Content-Length")).getD "" = s
      rw [hb2headers, titleCase_CL, hcl]
      rfl
    rw [recReq_some hcl2 hp] at hreq2
    by_cases hc : ((b2.get_request_body.length : Int) ≠ n)
        ∧ strContains (b2.get_request_header "Content-Type") "amf" = false
    · rw [if_pos hc] at hreq2
      injection hreq2 with hb
      rw [← hb]
      show pySlice b2.request.body n = req.body.getD ""
      rw [hb2body]
      exact pySlice_ge _ _ hle
    · rw [if_neg hc] at hreq2
      injection hreq2 with hb
      rw [← hb]
      exact hb2body

/-- C3, witness: request `Content-Length: 5` over body `"ab"` (declared
greater than actual) and response `Content-Length: 2` over body `"ab"`
(declared equal to actual) both leave the bodies unchanged. -/
theorem C3_theorem_witness : bW3.response.body = "ab" ∧ bW3.request.body = "ab" :=
  ⟨(C3_theorem phT ppT mkT 0 rawW3
      ⟨some "GET", some "/", some "HTTP/1.1", some "H1", some "ab"⟩
      ⟨some "HTTP/1.1", some "200", some "OK", some "H4", some "ab"⟩
      bW3 rfl rfl rfl).1 "2" 2 rfl rfl (by decide),
   (C3_theorem phT ppT mkT 0 rawW3
      ⟨some "GET", some "/", some "HTTP/1.1", some "H1", some "ab"⟩
      ⟨some "HTTP/1.1", some "200", some "OK", some "H4", some "ab"⟩
      bW3 rfl rfl rfl).2 "5" 5 rfl rfl (by decide)⟩

/-- C5, counterexample to the claim as stated: the response status string
`"abc"` is not parseable as an integer and construction raises
(`ValueError`) instead of degrading the status to 0. -/
theorem C5_counterexample :
    pythonInt "abc" = none ∧
    Burp.process phT ppT mkT 0 rawC5 = .error (.valueError "abc") :=
  ⟨rfl, rfl⟩

/-- C5 (amended): an absent status is coerced to 0 without raising, but a
status string that is not parseable as an integer makes construction fail
with the propagated `ValueError` rather than degrading to 0. -/
theorem C5_amended (ph : Option String → Dict) (pp : Burp → Dict)
    (mkUrl : Option String → Option String → String) (idx : Int)
    (data : RawRecord) (req : RawReq) (resp : RawResp)
    (hreq : data.request = some req)
    (hresp : data.response = some resp) :
    (resp.status = none → ∀ b, Burp.process ph pp mkUrl idx data = .ok b →
      b.get_response_status = 0) ∧
    (∀ s, resp.status = some s → pythonInt s = none →
      Burp.process ph pp mkUrl idx data = .error (.valueError s)) := by
  obtain ⟨dh, di, dt, dreq, dresp⟩ := data
  have hd1 : dreq = some req := hreq
  have hd2 : dresp = some resp := hresp
  subst hd1
  subst hd2
  constructor
  · intro hnone b hok
    obtain ⟨st, b2, hcs, hrr, hreq2⟩ :=
      process_ok_parts ph pp mkUrl idx dh di dt req resp b hok
    rw [hnone, coerceStatus_none] at hcs
    injection hcs with hst0
    show b.response.status = 0
    have h1 : b.response.status = b2.response.status := by
      rw [(recReq_shape hreq2).1]
    have h2 : b2.response.status = st := by
      rw [(recResp_shape hrr).2.2]
      rfl
    rw [h1, h2, ← hst0]
  · intro s hsome hp
    rw [process_cons]
    have hcs : coerceStatus resp.status = .error (.valueError s) := by
      rw [hsome]
      exact coerceStatus_some_err hp
    rw [processSections_err hcs]

/-- C5 amended, witness: `rawW5` (no status) constructs with status 0,
while `rawC5` (status `"abc"`) fails with a `ValueError`. -/
theorem C5_amended_witness :
    bW5.get_response_status = 0 ∧
    Burp.process phT ppT mkT 0 rawC5 = .error (.valueError "abc") :=
  ⟨(C5_amended phT ppT mkT 0 rawW5 reqMin
      ⟨some "HTTP/1.1", none, some "OK", none, some ""⟩ rfl rfl).1 rfl bW5 rfl,
   (C5_amended phT ppT mkT 0 rawC5 reqMin
      ⟨some "HTTP/1.1", some "abc", some "OK", none, some ""⟩ rfl rfl).2 "abc" rfl rfl⟩

/-- C6: a raw record lacking the top-level `request` section (or, with
`request` present, lacking `response`) makes construction fail with the
error naming the missing section (Python's `KeyError`, the realization of
the spec's `MissingFieldError`); the `Except` result carries no partial
record. -/
theorem C6_theorem (ph : Option String → Dict) (pp : Burp → Dict)
    (mkUrl : Option String → Option String → String) (idx : Int)
    (data : RawRecord) :
    (data.request = none →
      Burp.process ph pp mkUrl idx data = .error (.keyError "request")) ∧
    (∀ req, data.request = some req → data.response = none →
      Burp.process ph pp mkUrl idx data = .error (.keyError "response")) := by
  obtain ⟨dh, di, dt, dreq, dresp⟩ := data
  constructor
  · intro hnone
    have hd : dreq = none := hnone
    subst hd
    exact process_noreq ph pp mkUrl idx dh di dt dresp
  · intro req hsome hnone
    have hd1 : dreq = some req := hsome
    have hd2 : dresp = none := hnone
    subst hd1
    subst hd2
    exact process_noresp ph pp mkUrl idx dh di dt req

/-- C6, witness: records missing `request` and missing `response` fail with
the corresponding `KeyError`. -/
theorem C6_theorem_witness :
    Burp.process phT ppT mkT 0 rawNoReq = .error (.keyError "request") ∧
    Burp.process phT ppT mkT 0 rawNoResp = .error (.keyError "response") :=
  ⟨(C6_theorem phT ppT mkT 0 rawNoReq).1 rfl,
   (C6_theorem phT ppT mkT 0 rawNoResp).2 reqMin rfl rfl⟩

theorem listSet_length {α : Type} (l : List α) (r : Nat) (d : α) :
    (l.set r d).length = l.length := by
  induction l generalizing r with
  | nil => rfl
  | cons a t ih =>
    cases r with
    | zero => rfl
    | succ m => simp only [List.set, List.length_cons, ih m]

theorem alloc_snd (h : Heap) (d : Dict) : (Heap.alloc h d).2 = h.cells.length := rfl

theorem alloc_fst_len (h : Heap) (d : Dict) :
    (Heap.alloc h d).1.cells.length = h.cells.length + 1 := by
  show (h.cells ++ [d]).length = h.cells.length + 1
  simp

theorem replayFinish_method (u : String) (m : Option String) (bd : String) (hp : Heap × Nat) :
    (Scanner.replayFinish u m bd hp).method = m := by
  unfold Scanner.replayFinish
  split <;> rfl

theorem replayFinish_body (u : String) (m : Option String) (bd : String) (hp : Heap × Nat) :
    (Scanner.replayFinish u m bd hp).body = bd := by
  unfold Scanner.replayFinish
  split <;> rfl

theorem replayFinish_headersRef (u : String) (m : Option String) (bd : String) (hp : Heap × Nat) :
    (Scanner.replayFinish u m bd hp).headersRef = hp.2 := by
  unfold Scanner.replayFinish
  split <;> rfl

theorem replayFinish_heap_pos (u : String) (m : Option String) (bd : String) (hp : Heap × Nat)
    (hc : m = some "POST" ∧ bd ≠ "") :
    (Scanner.replayFinish u m bd hp).heap =
      Heap.set hp.1 hp.2 (dictUpdate (Heap.get hp.1 hp.2) "Content-Length" (toString bd.length)) := by
  unfold Scanner.replayFinish
  rw [if_pos hc]

theorem replayFinish_heap_neg (u : String) (m : Option String) (bd : String) (hp : Heap × Nat)
    (hc : ¬ (m = some "POST" ∧ bd ≠ "")) :
    (Scanner.replayFinish u m bd hp).heap = hp.1 := by
  unfold Scanner.replayFinish
  rw [if_neg hc]

theorem replayFinish_CL (u : String) (m : Option String) (bd : String) (hp : Heap × Nat)
    (hvalid : hp.2 < hp.1.cells.length)
    (hm : m = some "POST") (hb : bd ≠ "") :
    dictGet (Heap.get (Scanner.replayFinish u m bd hp).heap
      (Scanner.replayFinish u m bd hp).headersRef) "Content-Length" =
      some (toString bd.length) := by
  rw [replayFinish_headersRef, replayFinish_heap_pos u m bd hp ⟨hm, hb⟩]
  rw [heapGet_set_self _ _ _ hvalid]
  exact dictGet_update_self _ _ _

/-- C7: for every replay build whose effective method is `"POST"` and whose
effective body is non-empty, the effective headers map `"Content-Length"`
to the decimal string of the effective body's length, regardless of the
source record's headers or any caller-supplied override. -/
theorem C7_theorem (h : Heap) (b : Burp) (srcRef : Nat)
    (urlO methodO bodyO : Option String) (headersO : Option Nat) (out : ReplayOut)
    (hout : Scanner.replay h b srcRef urlO methodO bodyO headersO = out)
    (hval : ∀ r, headersO = some r → r < h.cells.length)
    (hm : out.method = some "POST") (hb : out.body ≠ "") :
    dictGet (Heap.get out.heap out.headersRef) "Content-Length" =
      some (toString out.body.length) := by
  subst hout
  unfold Scanner.replay at hm hb ⊢
  rw [replayFinish_method] at hm
  rw [replayFinish_body] at hb
  rw [replayFinish_body]
  apply replayFinish_CL _ _ _ _ ?_ hm hb
  cases headersO with
  | some r =>
    have hvr := hval r rfl
    simpa [Scanner.replayHeap] using hvr
  | none =>
    show (Heap.alloc h (Heap.get h srcRef)).2 < (Heap.alloc h (Heap.get h srcRef)).1.cells.length
    rw [alloc_snd, alloc_fst_len]
    omega

/-- C7, witness: replaying `bC8` (method POST, body `"ab"`) with no
overrides yields effective headers with `Content-Length: "2"`. -/
theorem C7_theorem_witness :
    dictGet (Heap.get outPost.heap outPost.headersRef) "Content-Length" =
      some (toString outPost.body.length) :=
  C7_theorem h0 bC8 0 none none none none outPost rfl
    (fun r hr => Option.noConfusion hr) rfl (by decide)

/-- C8, counterexample to the claim as stated: `bC8` (a record constructed
by `Burp.process` from `rawC8`: method POST, body `"ab"`, request
`Content-Length: "5"`) replayed with no overrides produces effective
headers that are not deep-equal to the source request headers — the POST
rewrite changed Content-Length to `"2"`. -/
theorem C8_counterexample :
    Burp.process phT ppT mkT 0 rawC8 = .ok bC8 ∧
    Heap.get h0 0 = bC8.get_request_headers ∧
    Scanner.replay h0 bC8 0 none none none none = outPost ∧
    pyDictEq (Heap.get outPost.heap outPost.headersRef) bC8.get_request_headers = false :=
  ⟨rfl, rfl, rfl, by decide⟩

/-- C8 (amended): with no headers override, the effective headers are a
fresh object distinct from the source record's headers; the source
record's headers object is unchanged by the build (including when the POST
rewrite applies); the effective headers equal the source headers whenever
the POST Content-Length rewrite does not apply, and otherwise differ from
them exactly by the Content-Length entry being overwritten with the
effective body's length. -/
theorem C8_amended (h : Heap) (b : Burp) (srcRef : Nat)
    (urlO methodO bodyO : Option String) (out : ReplayOut)
    (hsrc : srcRef < h.cells.length)
    (htie : Heap.get h srcRef = b.get_request_headers)
    (hout : Scanner.replay h b srcRef urlO methodO bodyO none = out) :
    out.headersRef ≠ srcRef ∧
    Heap.get out.heap srcRef = b.get_request_headers ∧
    (¬ (out.method = some "POST" ∧ out.body ≠ "") →
      Heap.get out.heap out.headersRef = b.get_request_headers) ∧
    ((out.method = some "POST" ∧ out.body ≠ "") →
      Heap.get out.heap out.headersRef =
        dictUpdate b.get_request_headers "Content-Length" (toString out.body.length)) := by
  subst hout
  unfold Scanner.replay
  have hhr : Scanner.replayHeap h srcRef none = Heap.alloc h (Heap.get h srcRef) := rfl
  rw [hhr]
  have hne2 : (Heap.alloc h (Heap.get h srcRef)).2 ≠ srcRef := by
    rw [alloc_snd]
    omega
  refine ⟨?_, ?_, ?_, ?_⟩
  · rw [replayFinish_headersRef]
    exact hne2
  · by_cases hc : (methodO <|> b.get_request_method) = some "POST"
        ∧ (bodyO.getD b.get_request_body) ≠ ""
    · rw [replayFinish_heap_pos _ _ _ _ hc]
      rw [heapGet_set_ne _ _ _ _ hne2]
      rw [heapGet_alloc_old _ _ _ hsrc]
      exact htie
    · rw [replayFinish_heap_neg _ _ _ _ hc]
      rw [heapGet_alloc_old _ _ _ hsrc]
      exact htie
  · intro hnc
    have hc : ¬ ((methodO <|> b.get_request_method) = some "POST"
        ∧ (bodyO.getD b.get_request_body) ≠ "") := by
      intro hcon
      exact hnc ⟨by rw [replayFinish_method]; exact hcon.1,
                 by rw [replayFinish_body]; exact hcon.2⟩
    rw [replayFinish_heap_neg _ _ _ _ hc, replayFinish_headersRef]
    rw [heapGet_alloc_fresh]
    exact htie
  · intro hcnd
    have hm : (methodO <|> b.get_request_method) = some "POST" := by
      have := hcnd.1
      rwa [replayFinish_method] at this
    have hbd : (bodyO.getD b.get_request_body) ≠ "" := by
      have := hcnd.2
      rwa [replayFinish_body] at this
    rw [replayFinish_heap_pos _ _ _ _ ⟨hm, hbd⟩, replayFinish_headersRef, replayFinish_body]
    have hvalid : (Heap.alloc h (Heap.get h srcRef)).2 <
        (Heap.alloc h (Heap.get h srcRef)).1.cells.length := by
      rw [alloc_snd, alloc_fst_len]
      omega
    rw [heapGet_set_self _ _ _ hvalid, heapGet_alloc_fresh, htie]

/-- C8 amended, witness: the no-override replay of `bC8` instantiating all
four conjuncts (here the POST rewrite applies, so the effective headers are
the source headers with Content-Length overwritten to `"2"`). -/
theorem C8_amended_witness :
    outPost.headersRef ≠ 0 ∧
    Heap.get outPost.heap 0 = bC8.get_request_headers ∧
    (¬ (outPost.method = some "POST" ∧ outPost.body ≠ "") →
      Heap.get outPost.heap outPost.headersRef = bC8.get_request_headers) ∧
    ((outPost.method = some "POST" ∧ outPost.body ≠ "") →
      Heap.get outPost.heap outPost.headersRef =
        dictUpdate bC8.get_request_headers "Content-Length" (toString outPost.body.length)) :=
  C8_amended h0 bC8 0 none none none outPost (by decide) rfl rfl

/-- C9: for every record and every header name whose canonical (title-cased)
form is absent from the corresponding headers mapping, the request-side
lookup returns the empty string while the response-side lookup returns the
`None` sentinel — two distinct operations with distinct absent-key
defaults. -/
theorem C9_theorem (b : Burp) (name : String)
    (hq : dictGet b.request.headers (titleCase name) = none)
    (hr : dictGet b.response.headers (titleCase name) = none) :
    b.get_request_header name = "" ∧ b.get_response_header name = none := by
  constructor
  · show (dictGet b.request.headers (titleCase name)).getD "" = ""
    rw [hq]
    rfl
  · exact hr

/-- C9, witness: the header `X-Powered-By` is absent on both sides of
`bC8`, so the two lookups return their respective defaults. -/
theorem C9_theorem_witness :
    bC8.get_request_header "X-Powered-By" = "" ∧
    bC8.get_response_header "X-Powered-By" = none :=
  C9_theorem bC8 "X-Powered-By" (by decide) (by decide)

/-- C10: when a replay build is given an explicit headers override, that
object is used by reference — the effective headers reference is the
caller's reference, no allocation happens, and when the POST rewrite
applies it is written into the caller's object in place (otherwise the
store is untouched). -/
theorem C10_theorem (h : Heap) (b : Burp) (srcRef r : Nat)
    (urlO methodO bodyO : Option String) (out : ReplayOut)
    (hr : r < h.cells.length)
    (hout : Scanner.replay h b srcRef urlO methodO bodyO (some r) = out) :
    out.headersRef = r ∧
    out.heap.cells.length = h.cells.length ∧
    ((out.method = some "POST" ∧ out.body ≠ "") →
      Heap.get out.heap r = dictUpdate (Heap.get h r) "Content-Length" (toString out.body.length)) ∧
    (¬ (out.method = some "POST" ∧ out.body ≠ "") → out.heap = h) := by
  subst hout
  unfold Scanner.replay
  have hhr : Scanner.replayHeap h srcRef (some r) = (h, r) := rfl
  rw [hhr]
  refine ⟨?_, ?_, ?_, ?_⟩
  · rw [replayFinish_headersRef]
  · by_cases hc : (methodO <|> b.get_request_method) = some "POST"
        ∧ (bodyO.getD b.get_request_body) ≠ ""
    · rw [replayFinish_heap_pos _ _ _ _ hc]
      exact listSet_length h.cells r _
    · rw [replayFinish_heap_neg _ _ _ _ hc]
  · intro hcnd
    have hm : (methodO <|> b.get_request_method) = some "POST" := by
      have := hcnd.1
      rwa [replayFinish_method] at this
    have hbd : (bodyO.getD b.get_request_body) ≠ "" := by
      have := hcnd.2
      rwa [replayFinish_body] at this
    rw [replayFinish_heap_pos _ _ _ _ ⟨hm, hbd⟩, replayFinish_body]
    rw [heapGet_set_self _ _ _ hr]
  · intro hnc
    have hc : ¬ ((methodO <|> b.get_request_method) = some "POST"
        ∧ (bodyO.getD b.get_request_body) ≠ "") := by
      intro hcon
      exact hnc ⟨by rw [replayFinish_method]; exact hcon.1,
                 by rw [replayFinish_body]; exact hcon.2⟩
    rw [replayFinish_heap_neg _ _ _ _ hc]

/-- C10, witness: replaying `bC8` with cell 0 of `h0` supplied as the
headers override rewrites Content-Length inside cell 0 itself. -/
theorem C10_theorem_witness :
    outC10.headersRef = 0 ∧
    outC10.heap.cells.length = h0.cells.length ∧
    ((outC10.method = some "POST" ∧ outC10.body ≠ "") →
      Heap.get outC10.heap 0 = dictUpdate (Heap.get h0 0) "Content-Length" (toString outC10.body.length)) ∧
    (¬ (outC10.method = some "POST" ∧ outC10.body ≠ "") → outC10.heap = h0) :=
  C10_theorem h0 bC8 0 0 none none none outC10 (by decide) rfl
